import Mathlib

/-!
Verification of the browser-side client of the Voice Live Avatar sample
(`static/app.js`, served by the Python/FastAPI backend) and of the
voicerag-assistant React frontend (`App.tsx`).

The JavaScript source is shallowly embedded: strings and byte buffers are
lists of natural-number code units / byte values, 32-bit float samples are
embedded as rationals (every arithmetic step of the PCM16 conversion —
clamp, multiply by 0x8000 or 0x7FFF, truncation on Int16Array store — is
exact in IEEE double precision for float32 inputs, so the rational model
computes the very same values), and the event-driven state of the page is
an explicit state record with the handlers as state-transition functions.
-/

namespace VoiceLive

/-! ### PCM16Processor (app.js, AudioWorklet processor)

Source:
  const s = Math.max(-1, Math.min(1, this.buffer[j]));
  pcm16[j] = s < 0 ? s * 0x8000 : s * 0x7FFF;

The store into the `Int16Array` converts the number with ToInt16, which
truncates toward zero (no wrap occurs here because the clamped and scaled
value already lies in the 16-bit range). -/

/-- Clamp of one sample, `Math.max(-1, Math.min(1, x))`. -/
def clampSample (x : ℚ) : ℚ := max (-1) (min 1 x)

/-- Truncation toward zero, the integer conversion performed by a store
into an `Int16Array` for values already in range. -/
def truncToInt (q : ℚ) : ℤ := if q < 0 then ⌈q⌉ else ⌊q⌋

/-- One sample through the worklet conversion:
`s < 0 ? s * 0x8000 : s * 0x7FFF` after the clamp, stored as a 16-bit
integer. -/
def pcm16OfSample (x : ℚ) : ℤ :=
  let s := clampSample x
  if s < 0 then truncToInt (s * 32768) else truncToInt (s * 32767)

/-- The whole 2400-sample buffer is converted sample by sample. -/
def pcm16Buffer (b : List ℚ) : List ℤ := b.map pcm16OfSample

/-! ### Base64 (browser `btoa` / `atob`, app.js `arrayBufferToBase64` and
`base64ToArrayBuffer`)

`btoa` base64-encodes a string of code units that must all be below 256;
`atob` decodes, failing (an `InvalidCharacterError`) on input that is not
base64. Strings are embedded as lists of code-unit values. -/

/-- Character of the standard base64 alphabet at index `k < 64`. -/
def b64Char (k : ℕ) : ℕ :=
  if k < 26 then 65 + k
  else if k < 52 then 97 + (k - 26)
  else if k < 62 then 48 + (k - 52)
  else if k = 62 then 43
  else 47

/-- Index of a character in the base64 alphabet, `none` for characters
outside the alphabet (and for the padding character 61, a merely-ASCII
equals sign). -/
def b64Index (c : ℕ) : Option ℕ :=
  if 65 ≤ c ∧ c ≤ 90 then some (c - 65)
  else if 97 ≤ c ∧ c ≤ 122 then some (26 + (c - 97))
  else if 48 ≤ c ∧ c ≤ 57 then some (52 + (c - 48))
  else if c = 43 then some 62
  else if c = 47 then some 63
  else none

/-- Base64 encoding of a byte sequence, three bytes to four characters,
with trailing groups of one or two bytes padded with 61 (the code of the
padding character). This is what `btoa` computes on a string of code
units below 256. -/
def b64encode : List ℕ → List ℕ
  | [] => []
  | [a] => [b64Char (a / 4), b64Char (a % 4 * 16), 61, 61]
  | [a, b] => [b64Char (a / 4), b64Char (a % 4 * 16 + b / 16), b64Char (b % 16 * 4), 61]
  | a :: b :: c :: rest =>
      b64Char (a / 4) :: b64Char (a % 4 * 16 + b / 16) ::
        b64Char (b % 16 * 4 + c / 64) :: b64Char (c % 64) :: b64encode rest

/-- Base64 decoding of a character sequence, four characters to three
bytes, the final group possibly padded; `none` on input that is not valid
base64. This is what `atob` computes, a throw embedded as `none`. -/
def b64decode : List ℕ → Option (List ℕ)
  | [] => some []
  | c1 :: c2 :: c3 :: c4 :: rest =>
      match b64Index c1, b64Index c2 with
      | some w, some x =>
          if c3 = 61 ∧ c4 = 61 ∧ rest = [] then
            some [w * 4 + x / 16]
          else if c4 = 61 ∧ rest = [] then
            match b64Index c3 with
            | some y => some [w * 4 + x / 16, x % 16 * 16 + y / 4]
            | none => none
          else
            match b64Index c3, b64Index c4 with
            | some y, some z =>
                (b64decode rest).map
                  (fun tail => (w * 4 + x / 16) :: (x % 16 * 16 + y / 4) :: (y % 4 * 64 + z) :: tail)
            | _, _ => none
      | _, _ => none
  | _ => none

/-- The `btoa` builtin: defined only when every code unit is below 256
(otherwise the browser throws an `InvalidCharacterError`). -/
def btoaFn (s : List ℕ) : Option (List ℕ) :=
  if s.all (fun c => c < 256) then some (b64encode s) else none

/-- Source of `arrayBufferToBase64` (app.js): read the buffer as a
`Uint8Array`, build a binary string with `String.fromCharCode` on each
byte, and `btoa` it. Bytes of a `Uint8Array` are below 256 by
construction, embedded as `Fin 256`. -/
def arrayBufferToBase64 (buffer : List (Fin 256)) : List ℕ :=
  b64encode (buffer.map Fin.val)

/-- Source of `base64ToArrayBuffer` (app.js): `atob` the string and store
each `charCodeAt` into a fresh `Uint8Array`; `atob` output code units are
already the byte values. The `atob` throw is embedded as `none`. -/
def base64ToArrayBuffer (base64 : List ℕ) : Option (List ℕ) :=
  b64decode base64

/-! ### Avatar SDP exchange (app.js `setupWebRTC` / `handleAvatarSdpAnswer`)

The client sends `btoa(JSON.stringify(peerConnection.localDescription))`
and decodes the answer with `JSON.parse(atob(serverSdp))`. An
`RTCSessionDescription` serializes (via its `toJSON`) to an object with
exactly the two string fields `type` and `sdp`, in that order, so
`JSON.stringify` produces a text of shape
open-brace `"type":` string-literal `,"sdp":` string-literal close-brace.
The serializer below is that of `JSON.stringify` on such an object; the
parser is the restriction of `JSON.parse` to texts of exactly this shape
(on which the general parser and this one agree). Strings are lists of
UTF-16 code units. -/

/-- A session description: the `type` and `sdp` string fields of an
`RTCSessionDescription`, as UTF-16 code-unit lists. -/
structure SessionDescription where
  descType : List ℕ
  sdp : List ℕ
deriving DecidableEq

/-- Hex digit character for a value below 16, lowercase as produced by
`JSON.stringify` in its `\u00..` escapes. -/
def hexDigit (n : ℕ) : ℕ := if n < 10 then 48 + n else 97 + (n - 10)

/-- Value of a hex digit character, `none` for a non-digit. `JSON.parse`
accepts lowercase and uppercase. -/
def hexVal (c : ℕ) : Option ℕ :=
  if 48 ≤ c ∧ c ≤ 57 then some (c - 48)
  else if 97 ≤ c ∧ c ≤ 102 then some (10 + (c - 97))
  else if 65 ≤ c ∧ c ≤ 70 then some (10 + (c - 65))
  else none

/-- The escape `JSON.stringify` applies to one string character: quote and
backslash get a backslash escape, the control characters 8, 9, 10, 12, 13
get their short escapes, other characters below 32 get a `\u00..` escape,
everything else is emitted verbatim. -/
def escapeChar (c : ℕ) : List ℕ :=
  if c = 34 then [92, 34]
  else if c = 92 then [92, 92]
  else if c = 8 then [92, 98]
  else if c = 9 then [92, 116]
  else if c = 10 then [92, 110]
  else if c = 12 then [92, 102]
  else if c = 13 then [92, 114]
  else if c < 32 then [92, 117, 48, 48, hexDigit (c / 16), hexDigit (c % 16)]
  else [c]

/-- Code units of the serialized object head: open brace, `"type":`, and
the opening quote of the value. -/
def openBraceTypeKey : List ℕ := [123, 34, 116, 121, 112, 101, 34, 58, 34]

/-- Code units of the separator between the two fields: closing quote is
consumed by the string parser, then `,"sdp":` and the opening quote of the
value. -/
def sdpKeySep : List ℕ := [44, 34, 115, 100, 112, 34, 58, 34]

/-- Output of `JSON.stringify` on a session description object: the two
fields in insertion order, string values escaped character by character.
The grouping of the appends is chosen for the proofs; append is
associative, so the function is the plain concatenation
head ++ escaped type ++ quote ++ separator ++ escaped sdp ++ quote ++
close brace. -/
def stringifySessionDescription (d : SessionDescription) : List ℕ :=
  openBraceTypeKey ++
    ((d.descType.flatMap escapeChar) ++
      (34 :: (sdpKeySep ++ ((d.sdp.flatMap escapeChar) ++ (34 :: [125])))))

/-- Body of a JSON string literal, after its opening quote: returns the
unescaped characters and the input remaining after the closing quote.
Mirrors `JSON.parse`: an unescaped quote ends the literal, a backslash
starts one of the escapes `\" \\ \/ \b \f \n \r \t \uXXXX`, a raw control
character below 32 is a syntax error (`none`), any other character stands
for itself. -/
def parseStringBody : List ℕ → Option (List ℕ × List ℕ)
  | [] => none
  | c :: rest =>
    if c = 34 then some ([], rest)
    else if c = 92 then
      match rest with
      | [] => none
      | e :: rest2 =>
        if e = 34 then (parseStringBody rest2).map (fun p => (34 :: p.1, p.2))
        else if e = 92 then (parseStringBody rest2).map (fun p => (92 :: p.1, p.2))
        else if e = 47 then (parseStringBody rest2).map (fun p => (47 :: p.1, p.2))
        else if e = 98 then (parseStringBody rest2).map (fun p => (8 :: p.1, p.2))
        else if e = 102 then (parseStringBody rest2).map (fun p => (12 :: p.1, p.2))
        else if e = 110 then (parseStringBody rest2).map (fun p => (10 :: p.1, p.2))
        else if e = 114 then (parseStringBody rest2).map (fun p => (13 :: p.1, p.2))
        else if e = 116 then (parseStringBody rest2).map (fun p => (9 :: p.1, p.2))
        else if e = 117 then
          match rest2 with
          | d1 :: d2 :: d3 :: d4 :: rest3 =>
            match hexVal d1, hexVal d2, hexVal d3, hexVal d4 with
            | some v1, some v2, some v3, some v4 =>
              (parseStringBody rest3).map
                (fun p => ((v1 * 4096 + v2 * 256 + v3 * 16 + v4) :: p.1, p.2))
            | _, _, _, _ => none
          | _ => none
        else none
    else if c < 32 then none
    else (parseStringBody rest).map (fun p => (c :: p.1, p.2))

/-- Consume an expected literal sequence of code units, returning the
remaining input, or `none` if the input does not start with it. -/
def expectLit : List ℕ → List ℕ → Option (List ℕ)
  | [], l => some l
  | _ :: _, [] => none
  | p :: ps, c :: cs => if c = p then expectLit ps cs else none

/-- Restriction of `JSON.parse` to the serialized session-description
shape: the object head, the `type` string, the field separator, the `sdp`
string, the closing brace, and nothing after it. -/
def parseSessionDescription (l : List ℕ) : Option SessionDescription := do
  let l1 ← expectLit openBraceTypeKey l
  let (t, l2) ← parseStringBody l1
  let l3 ← expectLit sdpKeySep l2
  let (s, l4) ← parseStringBody l3
  let l5 ← expectLit [125] l4
  if l5 = [] then some ⟨t, s⟩ else none

/-- Source of the offer encoding (app.js `setupWebRTC`):
`btoa(JSON.stringify(peerConnection.localDescription))`; the `btoa` throw
on a code unit of 256 or more is embedded as `none`. -/
def encodeSdpOffer (d : SessionDescription) : Option (List ℕ) :=
  btoaFn (stringifySessionDescription d)

/-- Source of the answer decoding (app.js `handleAvatarSdpAnswer`):
`JSON.parse(atob(serverSdpBase64))`, both failure modes embedded as
`none`. -/
def decodeSdpAnswer (b : List ℕ) : Option SessionDescription :=
  (b64decode b).bind parseSessionDescription

/-! ### WebSocket video playback queue (app.js `handleVideoChunk`,
`processVideoChunkQueue`, `setupWebSocketVideoPlayback`)

The page state the queue logic reads and writes: the `sourceBuffer` and
`mediaSource` variables (their null-ness), `sourceBuffer.updating`,
whether `mediaSource.readyState` is `open`, and the `videoChunksQueue`
array. The ghost field `appended` records, in order, the chunks handed to
`sourceBuffer.appendBuffer`; per Media Source Extensions semantics a
successful `appendBuffer` sets `updating` to true until the `updateend`
event fires. -/

structure VideoState (α : Type) where
  sourceBufferPresent : Bool
  updating : Bool
  mediaSourcePresent : Bool
  readyStateOpen : Bool
  videoChunksQueue : List α
  appended : List α
deriving DecidableEq

/-- Source of `processVideoChunkQueue`: return unless the source buffer
exists, is not updating, and the media source is open; then shift one
chunk off the queue and append it (which sets `updating`). -/
def processVideoChunkQueue {α : Type} (s : VideoState α) : VideoState α :=
  if !s.sourceBufferPresent || s.updating || !s.mediaSourcePresent || !s.readyStateOpen then s
  else
    match s.videoChunksQueue with
    | [] => s
    | next :: rest =>
        { s with videoChunksQueue := rest, appended := s.appended ++ [next], updating := true }

/-- Source of `handleVideoChunk` after its base64 decode: push the decoded
chunk onto the queue and call `processVideoChunkQueue`. -/
def handleVideoChunk {α : Type} (c : α) (s : VideoState α) : VideoState α :=
  processVideoChunkQueue { s with videoChunksQueue := s.videoChunksQueue ++ [c] }

/-- The three events that drive the queue: a `video_data` message with a
decoded chunk, the SourceBuffer `updateend` event (whose listener clears
`updating` and calls `processVideoChunkQueue`), and the MediaSource
`sourceopen` event (whose listener creates the source buffer when the
ready state is open). -/
inductive VideoEvent (α : Type)
  | receive (c : α)
  | updateEnd
  | sourceOpen

/-- One step of the video relay. -/
def videoStep {α : Type} : VideoEvent α → VideoState α → VideoState α
  | .receive c, s => handleVideoChunk c s
  | .updateEnd, s => processVideoChunkQueue { s with updating := false }
  | .sourceOpen, s =>
      { s with mediaSourcePresent := true, readyStateOpen := true, sourceBufferPresent := true }

/-- Run of the video relay over a list of events. -/
def runVideo {α : Type} (s : VideoState α) : List (VideoEvent α) → VideoState α
  | [] => s
  | e :: es => runVideo (videoStep e s) es

/-- The chunks received over the run, in arrival order. -/
def receivedChunks {α : Type} : List (VideoEvent α) → List α
  | [] => []
  | .receive c :: es => c :: receivedChunks es
  | _ :: es => receivedChunks es

/-- State right after `setupWebSocketVideoPlayback` creates the
`MediaSource` (ready state still closed, no source buffer yet, queue
cleared by the preceding `cleanupWebSocketVideo`). -/
def initialVideoState {α : Type} : VideoState α :=
  { sourceBufferPresent := false, updating := false, mediaSourcePresent := true,
    readyStateOpen := false, videoChunksQueue := [], appended := [] }

/-! ### Photo avatar scene update throttle (app.js
`throttledUpdateAvatarScene`, `SCENE_THROTTLE_MS = 50`) -/

/-- Source of `throttledUpdateAvatarScene`: drop the slider event if fewer
than 50 ms passed since the last accepted one, otherwise record the time
and run `updateAvatarScene`. Returns the new `lastSceneUpdate` and whether
the update ran. -/
def throttledUpdateAvatarScene (lastSceneUpdate now : ℤ) : ℤ × Bool :=
  if now - lastSceneUpdate < 50 then (lastSceneUpdate, false) else (now, true)

/-! ### Assistant audio playback scheduling (app.js `handleAudioDelta`)

Source:
  const now = playbackContext.currentTime;
  if (nextPlaybackTime < now) nextPlaybackTime = now;
  source.start(nextPlaybackTime);
  nextPlaybackTime += buffer.duration;

The buffer holds one float sample per decoded 16-bit sample at 24 kHz, so
its duration is sampleCount / 24000 seconds. Times are embedded as
rationals. -/

/-- One `handleAudioDelta` scheduling step: given the `nextPlaybackTime`
state, the current playback clock, and the chunk duration, return the
start time passed to `source.start` and the new `nextPlaybackTime`. -/
def scheduleChunk (nextPlaybackTime now dur : ℚ) : ℚ × ℚ :=
  let start := if nextPlaybackTime < now then now else nextPlaybackTime
  (start, start + dur)

/-- Duration of a decoded chunk of `sampleCount` 16-bit samples at
24 kHz. -/
def chunkDuration (sampleCount : ℕ) : ℚ := (sampleCount : ℚ) / 24000

/-- Fold of `handleAudioDelta` over a sequence of `audio_data` chunks:
each input pair is the playback clock at arrival and the chunk's sample
count; each output pair is the scheduled start time and the duration. -/
def scheduleAll (next : ℚ) : List (ℚ × ℕ) → List (ℚ × ℚ)
  | [] => []
  | (now, n) :: rest =>
      ((scheduleChunk next now (chunkDuration n)).1, chunkDuration n) ::
        scheduleAll (scheduleChunk next now (chunkDuration n)).2 rest

/-! ### Connection, microphone gating and server-message handling (app.js)

The module-level page state that the connection logic reads and writes,
and the handlers as transition functions that also emit the externally
visible actions: appended chat messages, WebSocket lifecycle operations,
sends on the frontend-to-backend WebSocket, and audio capture and playback
control. -/

inductive Role
  | user
  | assistant
  | system
deriving DecidableEq

/-- Names for the literal UI strings `addMessage` is called with; the
embedding only needs their identity, not their characters. -/
inductive UiText
  | enterEndpoint
  | enterSubscriptionKey
  | enterEntraToken
  | sessionStartedDebug
  | wsError
  | disconnected
  | sessionErrorText
  | sessionClosedText
  | avatarConnectingText
  | placeholderDots
  | transcriptText
  | emptyAssistant
deriving DecidableEq

/-- The `start_session` config fields these claims are about. `mode` is
the raw select value; `gatherConfig` itself reads neither the endpoint nor
any credential — the `connectSession` onopen handler adds the endpoint and
exactly one credential before sending. The many remaining UI fields of
`gatherConfig` (voice, avatar, turn detection, ...) do not influence these
claims and are omitted. -/
structure SessionConfig where
  mode : List ℕ
  endpoint : Option (List ℕ)
  apiKey : Option (List ℕ)
  entraToken : Option (List ℕ)
deriving DecidableEq

/-- The part of `gatherConfig` relevant here: the mode is read from the
form, no endpoint or credential field is set. -/
def gatherConfig (mode : List ℕ) : SessionConfig :=
  { mode := mode, endpoint := none, apiKey := none, entraToken := none }

/-- Code units of the select value `agent`. -/
def agentLit : List ℕ := [97, 103, 101, 110, 116]

/-- Code units of the select value `agent-v2`. -/
def agentV2Lit : List ℕ := agentLit ++ [45, 118, 50]

/-- Source: `mode === 'agent' || mode === 'agent-v2'`. -/
def isAgentMode (mode : List ℕ) : Bool :=
  mode == agentLit || mode == agentV2Lit

/-- Code points stripped by `String.prototype.trim` (WhiteSpace and
LineTerminator). -/
def isJsSpace (c : ℕ) : Bool :=
  decide (c = 9 ∨ c = 10 ∨ c = 11 ∨ c = 12 ∨ c = 13 ∨ c = 32 ∨ c = 160 ∨ c = 5760 ∨
    (8192 ≤ c ∧ c ≤ 8202) ∨ c = 8232 ∨ c = 8233 ∨ c = 8239 ∨ c = 8287 ∨ c = 12288 ∨
    c = 65279)

/-- `String.prototype.trim`. -/
def trimString (s : List ℕ) : List ℕ :=
  ((s.dropWhile isJsSpace).reverse.dropWhile isJsSpace).reverse

/-- Messages the frontend sends to the backend over its WebSocket. -/
inductive ClientMsg
  | startSession (config : SessionConfig)
  | stopSession
  | audioChunk (data : List ℕ)
  | avatarSdpOffer
  | updateScene
  | sendText (t : List ℕ)
deriving DecidableEq

/-- Externally visible actions a handler performs. -/
inductive Action
  | addMessage (role : Role) (text : UiText)
  | openWs
  | closeWs
  | send (m : ClientMsg)
  | startCapture
  | stopCapture
  | stopPlayback
deriving DecidableEq

/-- The module-level connection state of app.js. -/
structure ClientState where
  wsPresent : Bool
  wsOpen : Bool
  isConnected : Bool
  isConnecting : Bool
  isRecording : Bool
  avatarEnabled : Bool
  avatarOutputWebrtc : Bool
  isSpeaking : Bool
deriving DecidableEq

/-- The form fields `connectSession` reads. -/
structure ConnectForm where
  endpoint : List ℕ
  mode : List ℕ
  apiKey : List ℕ
  entraToken : List ℕ
deriving DecidableEq

/-- Source of `connectSession`: validate the trimmed endpoint, then the
credential demanded by the mode (subscription key unless the mode is an
agent mode, Entra ID token for agent modes); on a validation failure only
append one system chat message and change nothing else. Otherwise set the
connecting flag, append the status message, open the WebSocket to the
backend, and — in the `onopen` handler, the first send on the new socket —
send `start_session` with the gathered config plus the endpoint and
exactly one credential. -/
def connectSession (f : ConnectForm) (s : ClientState) : ClientState × List Action :=
  let endpoint := trimString f.endpoint
  let isAgent := isAgentMode f.mode
  if endpoint = [] then (s, [.addMessage .system .enterEndpoint])
  else
    let apiKey := trimString f.apiKey
    let entraToken := trimString f.entraToken
    if isAgent = false ∧ apiKey = [] then (s, [.addMessage .system .enterSubscriptionKey])
    else if isAgent = true ∧ entraToken = [] then (s, [.addMessage .system .enterEntraToken])
    else
      let config0 := gatherConfig f.mode
      let config1 := { config0 with endpoint := some endpoint }
      let config2 :=
        if isAgent then { config1 with entraToken := some entraToken }
        else { config1 with apiKey := some apiKey }
      ({ s with isConnecting := true, wsPresent := true, wsOpen := true },
       [.addMessage .system .sessionStartedDebug, .openWs, .send (.startSession config2)])

/-- Source of `handleDisconnect`: clear every session flag, stop capture
and playback, clean up WebRTC and WebSocket video, close and drop the
socket. -/
def handleDisconnect (s : ClientState) : ClientState × List Action :=
  ({ s with isConnected := false, isConnecting := false, isRecording := false,
            avatarEnabled := false, wsPresent := false, wsOpen := false },
   [.stopCapture, .stopPlayback, .closeWs])

/-- The server messages `handleServerMessage` switches on, with the bits
of payload the handlers read: whether the started session has the avatar
enabled and which output mode, whether `speech_started` carries an item
id, and whether an assistant chat entry already exists when a text delta
arrives. -/
inductive ServerMsg
  | sessionStarted (avatarOn : Bool) (outputWebrtc : Bool)
  | sessionError
  | iceServers
  | avatarSdpAnswer
  | audioData (data : List ℕ)
  | transcriptDoneUser (hasPlaceholder : Bool)
  | transcriptDoneAssistant
  | transcriptDelta (hasAssistantMsg : Bool)
  | textDelta (hasAssistantMsg : Bool)
  | textDone
  | speechStarted (hasItemId : Bool)
  | speechStopped
  | responseCreated
  | responseDone
  | sessionClosed
  | avatarConnecting
  | videoData (data : List ℕ)
  | unknown
deriving DecidableEq

/-- Source of `handleServerMessage` (the queue work of `video_data` and
the playback scheduling of `audio_data` are modelled separately by
`handleVideoChunk` and `scheduleChunk`). -/
def handleServerMessage (m : ServerMsg) (s : ClientState) : ClientState × List Action :=
  match m with
  | .sessionStarted avatarOn outputWebrtc =>
      ({ s with isConnected := true, isConnecting := false, avatarEnabled := avatarOn,
                avatarOutputWebrtc := outputWebrtc, isRecording := false },
       [.startCapture])
  | .sessionError =>
      ({ s with isConnecting := false }, [.addMessage .system .sessionErrorText])
  | .iceServers =>
      (s, if s.avatarOutputWebrtc then [.send .avatarSdpOffer] else [])
  | .avatarSdpAnswer => (s, [])
  | .audioData _ => (s, [])
  | .transcriptDoneUser hasPlaceholder =>
      (s, if hasPlaceholder then [] else [.addMessage .user .transcriptText])
  | .transcriptDoneAssistant => (s, [])
  | .transcriptDelta hasAssistantMsg =>
      (s, if hasAssistantMsg then [] else [.addMessage .assistant .transcriptText])
  | .textDelta hasAssistantMsg =>
      (s, if hasAssistantMsg then [] else [.addMessage .assistant .transcriptText])
  | .textDone => (s, [])
  | .speechStarted hasItemId =>
      ({ s with isSpeaking := true },
       .stopPlayback :: (if hasItemId then [.addMessage .user .placeholderDots] else []))
  | .speechStopped => ({ s with isSpeaking := false }, [])
  | .responseCreated =>
      ({ s with isSpeaking := true }, [.addMessage .assistant .emptyAssistant])
  | .responseDone => ({ s with isSpeaking := false }, [])
  | .sessionClosed =>
      let p := handleDisconnect s
      (p.1, .addMessage .system .sessionClosedText :: p.2)
  | .avatarConnecting => (s, [.addMessage .system .avatarConnectingText])
  | .videoData _ => (s, [])
  | .unknown => (s, [])

/-- Source of the `ws.onerror` handler: log, append a system message,
clear the connecting flag. -/
def onWsError (s : ClientState) : ClientState × List Action :=
  ({ s with isConnecting := false }, [.addMessage .system .wsError])

/-- Source of the `ws.onclose` handler: append `Disconnected` when the
session was connected, then `handleDisconnect`. -/
def onWsClose (s : ClientState) : ClientState × List Action :=
  let p := handleDisconnect s
  (p.1, (if s.isConnected then [Action.addMessage .system .disconnected] else []) ++ p.2)

/-- Source of `toggleMicrophone`: no-op unless connected, otherwise flip
`isRecording`. -/
def toggleMicrophone (s : ClientState) : ClientState :=
  if s.isConnected = false then s else { s with isRecording := !s.isRecording }

/-- Source of the worklet `port.onmessage` handler: return unless
connected, recording, and the socket exists and is open; otherwise send
one `audio_chunk` message with the base64-encoded PCM16 frame. -/
def onAudioFrame (data : List (Fin 256)) (s : ClientState) : List Action :=
  if s.isConnected = false ∨ s.isRecording = false ∨ s.wsPresent = false ∨ s.wsOpen = false
  then []
  else [.send (.audioChunk (arrayBufferToBase64 data))]

/-- The page events that can touch the recording state or send on the
socket. -/
inductive ClientEvent
  | audioFrame (data : List (Fin 256))
  | toggleMic
  | serverMsg (m : ServerMsg)
  | wsError
  | wsClose
  | connectClick (f : ConnectForm)
deriving DecidableEq

/-- One step of the page. -/
def clientStep : ClientEvent → ClientState → ClientState × List Action
  | .audioFrame d, s => (s, onAudioFrame d s)
  | .toggleMic, s => (toggleMicrophone s, [])
  | .serverMsg m, s => handleServerMessage m s
  | .wsError, s => onWsError s
  | .wsClose, s => onWsClose s
  | .connectClick f, s => connectSession f s

/-- Run of the page over a list of events, collecting all actions. -/
def runClient (s : ClientState) : List ClientEvent → ClientState × List Action
  | [] => (s, [])
  | e :: es =>
      let p := clientStep e s
      let q := runClient p.1 es
      (q.1, p.2 ++ q.2)

/-- Whether an action is a send of an `audio_chunk` message. -/
def isAudioChunkSend : Action → Bool
  | .send (.audioChunk _) => true
  | _ => false

/-! ### Tool-call list handlers (App.tsx, `useVoiceAssistant` callbacks)

The `toolCalls` React state is a list of entries; each handler is the
function passed to `setToolCalls`. Ids and payloads are embedded as
naturals (only their equality matters). -/

inductive ToolStatus
  | started
  | executing
  | completed
  | error
deriving DecidableEq

/-- One entry of the `toolCalls` list. -/
structure ToolCall where
  id : ℕ
  functionName : ℕ
  status : ToolStatus
  arguments : Option ℕ
  result : Option ℕ
  error : Option ℕ
  executionTime : Option ℚ
  timestamp : ℚ
deriving DecidableEq

/-- `onToolCallStarted`: append one new entry with status started. -/
def onToolCallStarted (callId fn : ℕ) (ts : ℚ) (l : List ToolCall) : List ToolCall :=
  l ++ [{ id := callId, functionName := fn, status := .started, arguments := none,
          result := none, error := none, executionTime := none, timestamp := ts }]

/-- `onToolCallArguments`: map over the list, setting the arguments of the
entries whose id equals the event's call id. -/
def onToolCallArguments (callId args : ℕ) (l : List ToolCall) : List ToolCall :=
  l.map (fun call => if call.id = callId then { call with arguments := some args } else call)

/-- `onToolCallExecuting`: set status executing on the matching entry. -/
def onToolCallExecuting (callId : ℕ) (l : List ToolCall) : List ToolCall :=
  l.map (fun call => if call.id = callId then { call with status := .executing } else call)

/-- `onToolCallCompleted`: set status completed with result and execution
time on the matching entry. -/
def onToolCallCompleted (callId res : ℕ) (time : ℚ) (l : List ToolCall) : List ToolCall :=
  l.map (fun call =>
    if call.id = callId then
      { call with status := .completed, result := some res, executionTime := some time }
    else call)

/-- `onToolCallError`: set status error with the error on the matching
entry. -/
def onToolCallError (callId err : ℕ) (l : List ToolCall) : List ToolCall :=
  l.map (fun call =>
    if call.id = callId then { call with status := .error, error := some err } else call)

lemma clampSample_mem (x : ℚ) : -1 ≤ clampSample x ∧ clampSample x ≤ 1 := by
  unfold clampSample
  constructor
  · exact le_max_left _ _
  · exact max_le (by norm_num) (min_le_left _ _)

lemma clampSample_mono {x y : ℚ} (h : x ≤ y) : clampSample x ≤ clampSample y := by
  unfold clampSample
  exact max_le_max le_rfl (min_le_min le_rfl h)

lemma truncToInt_mono {a b : ℚ} (h : a ≤ b) : truncToInt a ≤ truncToInt b := by
  unfold truncToInt
  by_cases ha : a < 0
  · by_cases hb : b < 0
    · simp only [ha, hb, if_true]
      exact Int.ceil_le_ceil h
    · simp only [ha, hb, if_true, if_false]
      have h1 : Int.ceil a ≤ 0 := Int.ceil_le.mpr (by exact_mod_cast le_of_lt ha)
      have h2 : (0 : ℤ) ≤ Int.floor b := Int.le_floor.mpr (by exact_mod_cast not_lt.mp hb)
      omega
  · have hb : ¬ b < 0 := fun hb => ha (lt_of_le_of_lt h hb)
    simp only [ha, hb, if_false]
    exact Int.floor_le_floor h

lemma pcm16OfSample_lower (x : ℚ) : -32768 ≤ pcm16OfSample x := by
  unfold pcm16OfSample truncToInt
  have h := clampSample_mem x
  set s := clampSample x with hs
  by_cases hneg : s < 0
  · simp only [hneg, if_true]
    have hq : (-32768 : ℚ) ≤ s * 32768 := by nlinarith [h.1]
    have hq2 : s * 32768 < 0 := by nlinarith
    simp only [hq2, if_true]
    have h3 : ((-32768 : ℤ) : ℚ) ≤ (⌈s * 32768⌉ : ℚ) := by
      have h4 := Int.le_ceil (s * 32768)
      push_cast
      linarith
    exact_mod_cast h3
  · simp only [hneg, if_false]
    have hq : (0 : ℚ) ≤ s * 32767 := by nlinarith [not_lt.mp hneg]
    have hq2 : ¬ s * 32767 < 0 := not_lt.mpr hq
    simp only [hq2, if_false]
    have : (0 : ℤ) ≤ ⌊s * 32767⌋ := Int.le_floor.mpr (by exact_mod_cast hq)
    omega

lemma pcm16OfSample_upper (x : ℚ) : pcm16OfSample x ≤ 32767 := by
  unfold pcm16OfSample truncToInt
  have h := clampSample_mem x
  set s := clampSample x with hs
  by_cases hneg : s < 0
  · simp only [hneg, if_true]
    have hq2 : s * 32768 < 0 := by nlinarith
    simp only [hq2, if_true]
    have : ⌈s * 32768⌉ ≤ 0 := Int.ceil_le.mpr (le_of_lt (by exact_mod_cast hq2))
    omega
  · simp only [hneg, if_false]
    have hq : (0 : ℚ) ≤ s * 32767 := by nlinarith [not_lt.mp hneg]
    have hq2 : ¬ s * 32767 < 0 := not_lt.mpr hq
    simp only [hq2, if_false]
    have hle : s * 32767 ≤ 32767 := by nlinarith [h.2]
    calc ⌊s * 32767⌋ ≤ ⌊(32767 : ℚ)⌋ := Int.floor_le_floor hle
    _ = 32767 := by norm_num

lemma pcm16OfSample_zero : pcm16OfSample 0 = 0 := by
  unfold pcm16OfSample clampSample truncToInt
  norm_num

lemma pcm16OfSample_mono {x y : ℚ} (h : x ≤ y) : pcm16OfSample x ≤ pcm16OfSample y := by
  unfold pcm16OfSample
  have hc := clampSample_mono h
  set s1 := clampSample x with hs1
  set s2 := clampSample y with hs2
  by_cases h1 : s1 < 0
  · by_cases h2 : s2 < 0
    · simp only [h1, h2, if_true]
      exact truncToInt_mono (by nlinarith)
    · simp only [h1, h2, if_true, if_false]
      have ha : truncToInt (s1 * 32768) ≤ 0 := by
        unfold truncToInt
        have hq : s1 * 32768 < 0 := by nlinarith
        simp only [hq, if_true]
        exact Int.ceil_le.mpr (le_of_lt (by exact_mod_cast hq))
      have hb : (0 : ℤ) ≤ truncToInt (s2 * 32767) := by
        unfold truncToInt
        have hq : (0 : ℚ) ≤ s2 * 32767 := by nlinarith [not_lt.mp h2]
        have hq2 : ¬ s2 * 32767 < 0 := not_lt.mpr hq
        simp only [hq2, if_false]
        exact Int.le_floor.mpr (by exact_mod_cast hq)
      omega
  · have h2 : ¬ s2 < 0 := fun h2 => h1 (lt_of_le_of_lt hc h2)
    simp only [h1, h2, if_false]
    exact truncToInt_mono (by nlinarith [not_lt.mp h1])

lemma b64Index_b64Char : ∀ k < 64, b64Index (b64Char k) = some k := by decide

lemma b64Char_ne_61 : ∀ k < 64, b64Char k ≠ 61 := by decide

lemma b64decode_b64encode :
    ∀ bs : List ℕ, (∀ x ∈ bs, x < 256) → b64decode (b64encode bs) = some bs
  | [], _ => rfl
  | [a], h => by
    have ha : a < 256 := h a (by simp)
    have h1 : a / 4 < 64 := by omega
    have h2 : a % 4 * 16 < 64 := by omega
    simp only [b64encode, b64decode, b64Index_b64Char _ h1, b64Index_b64Char _ h2]
    rw [if_pos ⟨trivial, trivial, trivial⟩]
    congr 2
    omega
  | [a, b], h => by
    have ha : a < 256 := h a (by simp)
    have hb : b < 256 := h b (by simp)
    have h1 : a / 4 < 64 := by omega
    have h2 : a % 4 * 16 + b / 16 < 64 := by omega
    have h3 : b % 16 * 4 < 64 := by omega
    simp only [b64encode, b64decode, b64Index_b64Char _ h1, b64Index_b64Char _ h2,
      b64Index_b64Char _ h3]
    rw [if_neg (fun hh => b64Char_ne_61 _ h3 hh.1), if_pos ⟨trivial, trivial⟩]
    congr 3
    · omega
    · omega
  | a :: b :: c :: rest, h => by
    have ha : a < 256 := h a (by simp)
    have hb : b < 256 := h b (by simp)
    have hc : c < 256 := h c (by simp)
    have h1 : a / 4 < 64 := by omega
    have h2 : a % 4 * 16 + b / 16 < 64 := by omega
    have h3 : b % 16 * 4 + c / 64 < 64 := by omega
    have h4 : c % 64 < 64 := by omega
    have ih := b64decode_b64encode rest (fun x hx => h x (by simp [hx]))
    simp only [b64encode, b64decode, b64Index_b64Char _ h1, b64Index_b64Char _ h2,
      b64Index_b64Char _ h3, b64Index_b64Char _ h4]
    rw [if_neg (fun hh => b64Char_ne_61 _ h3 hh.1),
      if_neg (fun hh => b64Char_ne_61 _ h4 hh.1), ih]
    rw [Option.map_some']
    congr 4
    · omega
    · omega
    · omega

lemma hexVal_hexDigit : ∀ k < 16, hexVal (hexDigit k) = some k := by decide

lemma parseStringBody_escapeChar (c : ℕ) (tail : List ℕ) :
    parseStringBody (escapeChar c ++ tail) =
      (parseStringBody tail).map (fun p => (c :: p.1, p.2)) := by
  unfold escapeChar
  split_ifs with h1 h2 h3 h4 h5 h6 h7 h8
  · subst h1
    rw [List.cons_append, List.cons_append, List.nil_append, parseStringBody.eq_def]
    norm_num
  · subst h2
    rw [List.cons_append, List.cons_append, List.nil_append, parseStringBody.eq_def]
    norm_num
  · subst h3
    rw [List.cons_append, List.cons_append, List.nil_append, parseStringBody.eq_def]
    norm_num
  · subst h4
    rw [List.cons_append, List.cons_append, List.nil_append, parseStringBody.eq_def]
    norm_num
  · subst h5
    rw [List.cons_append, List.cons_append, List.nil_append, parseStringBody.eq_def]
    norm_num
  · subst h6
    rw [List.cons_append, List.cons_append, List.nil_append, parseStringBody.eq_def]
    norm_num
  · subst h7
    rw [List.cons_append, List.cons_append, List.nil_append, parseStringBody.eq_def]
    norm_num
  · have hhi : c / 16 < 16 := by omega
    have hlo : c % 16 < 16 := by omega
    have h48 : hexVal 48 = some 0 := rfl
    simp only [List.cons_append, List.nil_append]
    rw [parseStringBody.eq_def]
    norm_num [hexVal_hexDigit _ hhi, hexVal_hexDigit _ hlo, h48]
    have hv : c / 16 * 16 + c % 16 = c := by omega
    rw [hv]
  · simp only [List.cons_append, List.nil_append]
    rw [parseStringBody.eq_def]
    norm_num [if_neg h1, if_neg h2, if_neg h8]

lemma parseStringBody_flatMap (s tail : List ℕ) :
    parseStringBody ((s.flatMap escapeChar) ++ (34 :: tail)) = some (s, tail) := by
  induction s with
  | nil =>
    rw [List.flatMap_nil, List.nil_append, parseStringBody.eq_def]
    norm_num
  | cons c s ih =>
    rw [List.flatMap_cons, List.append_assoc, parseStringBody_escapeChar, ih]
    rfl

lemma expectLit_append : ∀ p r : List ℕ, expectLit p (p ++ r) = some r
  | [], _ => rfl
  | c :: ps, r => by simp [expectLit, expectLit_append ps r]

lemma expectLit_self (p : List ℕ) : expectLit p p = some [] := by
  have h := expectLit_append p []
  simpa using h

lemma parseSessionDescription_stringify (d : SessionDescription) :
    parseSessionDescription (stringifySessionDescription d) = some d := by
  unfold parseSessionDescription stringifySessionDescription
  simp only [expectLit_append, expectLit_self, parseStringBody_flatMap,
    Option.bind_eq_bind, Option.some_bind]
  simp

lemma hexDigit_lt (n : ℕ) (h : n < 16) : hexDigit n < 256 := by
  unfold hexDigit
  split_ifs <;> omega

lemma escapeChar_all_lt (c : ℕ) (hc : c < 256) : ∀ x ∈ escapeChar c, x < 256 := by
  intro x hx
  unfold escapeChar at hx
  split_ifs at hx with h1 h2 h3 h4 h5 h6 h7 h8 <;>
    simp only [List.mem_cons, List.not_mem_nil, or_false] at hx
  · rcases hx with rfl | rfl <;> omega
  · rcases hx with rfl | rfl <;> omega
  · rcases hx with rfl | rfl <;> omega
  · rcases hx with rfl | rfl <;> omega
  · rcases hx with rfl | rfl <;> omega
  · rcases hx with rfl | rfl <;> omega
  · rcases hx with rfl | rfl <;> omega
  · rcases hx with rfl | rfl | rfl | rfl | rfl | rfl
    · omega
    · omega
    · omega
    · omega
    · exact hexDigit_lt _ (by omega)
    · exact hexDigit_lt _ (by omega)
  · subst hx
    exact hc

lemma stringify_all_lt (d : SessionDescription)
    (ht : ∀ c ∈ d.descType, c < 256) (hs : ∀ c ∈ d.sdp, c < 256) :
    ∀ x ∈ stringifySessionDescription d, x < 256 := by
  have hAll : ∀ (s : List ℕ), (∀ c ∈ s, c < 256) → ∀ x ∈ s.flatMap escapeChar, x < 256 := by
    intro s hsl x hx
    rw [List.mem_flatMap] at hx
    obtain ⟨a, ha, hxa⟩ := hx
    exact escapeChar_all_lt a (hsl a ha) x hxa
  intro x hx
  unfold stringifySessionDescription openBraceTypeKey sdpKeySep at hx
  rcases List.mem_append.mp hx with h | h
  · fin_cases h <;> norm_num
  rcases List.mem_append.mp h with h | h
  · exact hAll _ ht x h
  rcases List.mem_cons.mp h with rfl | h
  · norm_num
  rcases List.mem_append.mp h with h | h
  · fin_cases h <;> norm_num
  rcases List.mem_append.mp h with h | h
  · exact hAll _ hs x h
  rcases List.mem_cons.mp h with rfl | h
  · norm_num
  · fin_cases h
    norm_num

lemma processVideoChunkQueue_conservation {α : Type} (s : VideoState α) :
    (processVideoChunkQueue s).appended ++ (processVideoChunkQueue s).videoChunksQueue =
      s.appended ++ s.videoChunksQueue := by
  unfold processVideoChunkQueue
  split_ifs with h
  · rfl
  · cases hq : s.videoChunksQueue with
    | nil => simp [hq]
    | cons c rest => simp [hq]

lemma videoStep_conservation {α : Type} (e : VideoEvent α) (s : VideoState α) :
    (videoStep e s).appended ++ (videoStep e s).videoChunksQueue =
      s.appended ++ s.videoChunksQueue ++ receivedChunks [e] := by
  cases e with
  | receive c =>
    have h := processVideoChunkQueue_conservation
      { s with videoChunksQueue := s.videoChunksQueue ++ [c] }
    simp only [videoStep, handleVideoChunk, receivedChunks] at h ⊢
    rw [h]
    simp
  | updateEnd =>
    have h := processVideoChunkQueue_conservation { s with updating := false }
    simp only [videoStep, receivedChunks] at h ⊢
    rw [h]
    simp
  | sourceOpen => simp [videoStep, receivedChunks]

lemma runVideo_conservation {α : Type} :
    ∀ (evts : List (VideoEvent α)) (s : VideoState α),
      (runVideo s evts).appended ++ (runVideo s evts).videoChunksQueue =
        s.appended ++ s.videoChunksQueue ++ receivedChunks evts
  | [], s => by simp [runVideo, receivedChunks]
  | e :: es, s => by
    have h1 := videoStep_conservation e s
    have h2 := runVideo_conservation es (videoStep e s)
    simp only [runVideo]
    rw [h2, h1]
    cases e <;> simp [receivedChunks]

end VoiceLive

/-- C1: the PCM16 conversion in PCM16Processor clamps each sample to
[-1, 1], scales negative samples by 0x8000 and non-negative samples by
0x7FFF, and therefore every emitted 16-bit value lies in [-32768, 32767],
an input of 0 maps to 0, and the mapping is monotone non-decreasing in the
input sample. -/
theorem pcm16Processor_conversion_correct :
    (∀ b : List ℚ, ∀ v ∈ VoiceLive.pcm16Buffer b, -32768 ≤ v ∧ v ≤ 32767) ∧
    VoiceLive.pcm16OfSample 0 = 0 ∧
    (∀ x y : ℚ, x ≤ y → VoiceLive.pcm16OfSample x ≤ VoiceLive.pcm16OfSample y) := by
  refine ⟨?_, VoiceLive.pcm16OfSample_zero, fun x y h => VoiceLive.pcm16OfSample_mono h⟩
  intro b v hv
  unfold VoiceLive.pcm16Buffer at hv
  obtain ⟨x, _, rfl⟩ := List.mem_map.mp hv
  exact ⟨VoiceLive.pcm16OfSample_lower x, VoiceLive.pcm16OfSample_upper x⟩

/-- Witness for C1 at concrete samples: monotonicity applied at -1/2 ≤ 3/4,
and the range facts at a concrete buffer. -/
theorem pcm16Processor_conversion_correct_witness :
    VoiceLive.pcm16OfSample (-1/2) ≤ VoiceLive.pcm16OfSample (3/4) ∧
    (-32768 ≤ VoiceLive.pcm16OfSample 2 ∧ VoiceLive.pcm16OfSample 2 ≤ 32767) := by
  refine ⟨pcm16Processor_conversion_correct.2.2 (-1/2) (3/4) (by norm_num), ?_⟩
  exact pcm16Processor_conversion_correct.1 [2] _ (by simp [VoiceLive.pcm16Buffer])

/-- C10: base64ToArrayBuffer is a left inverse of arrayBufferToBase64 —
for every byte buffer b, decoding the encoding of b succeeds and returns a
buffer of the same length containing exactly the bytes of b. -/
theorem base64ToArrayBuffer_leftInverse (b : List (Fin 256)) :
    VoiceLive.base64ToArrayBuffer (VoiceLive.arrayBufferToBase64 b) = some (b.map Fin.val) ∧
    (b.map Fin.val).length = b.length := by
  refine ⟨?_, by simp⟩
  unfold VoiceLive.base64ToArrayBuffer VoiceLive.arrayBufferToBase64
  exact VoiceLive.b64decode_b64encode _ (fun x hx => by
    obtain ⟨y, _, rfl⟩ := List.mem_map.mp hx
    exact y.isLt)

/-- C2: the avatar SDP exchange encodes with
`btoa(JSON.stringify(localDescription))` and decodes with
`JSON.parse(atob(serverSdp))`, and these are mutually inverse: for every
session description object d (its strings made of code units below 256, as
`btoa` demands — SDP and its `type` field are ASCII), decoding the
encoding of d yields d again. -/
theorem sdpExchange_roundtrip (d : VoiceLive.SessionDescription)
    (ht : ∀ c ∈ d.descType, c < 256) (hs : ∀ c ∈ d.sdp, c < 256) :
    ∃ enc, VoiceLive.encodeSdpOffer d = some enc ∧
      VoiceLive.decodeSdpAnswer enc = some d := by
  have hall := VoiceLive.stringify_all_lt d ht hs
  refine ⟨VoiceLive.b64encode (VoiceLive.stringifySessionDescription d), ?_, ?_⟩
  · unfold VoiceLive.encodeSdpOffer VoiceLive.btoaFn
    rw [if_pos]
    exact List.all_eq_true.mpr (fun c hc => decide_eq_true (hall c hc))
  · unfold VoiceLive.decodeSdpAnswer
    rw [VoiceLive.b64decode_b64encode _ hall, Option.some_bind]
    exact VoiceLive.parseSessionDescription_stringify d

/-- Witness for C2 at the concrete description with type "offer" and sdp
"v=0" (as code units). -/
theorem sdpExchange_roundtrip_witness :
    ∃ enc,
      VoiceLive.encodeSdpOffer ⟨[111, 102, 102, 101, 114], [118, 61, 48]⟩ = some enc ∧
      VoiceLive.decodeSdpAnswer enc = some ⟨[111, 102, 102, 101, 114], [118, 61, 48]⟩ :=
  sdpExchange_roundtrip ⟨[111, 102, 102, 101, 114], [118, 61, 48]⟩ (by decide) (by decide)

/-- C3: the video relay appends at most one queued chunk per invocation of
processVideoChunkQueue and only when a source buffer exists, it is not
updating, and the MediaSource is open (so appendBuffer is never called
during a pending append or on a non-open MediaSource); and over any run
from the initial state, the chunks handed to appendBuffer followed by the
chunks still queued are exactly the received chunks in arrival order —
each received chunk is appended at most once and in order. -/
theorem videoRelay_append_discipline :
    (∀ s : VoiceLive.VideoState ℕ,
      ((VoiceLive.processVideoChunkQueue s).appended = s.appended ∧
       (VoiceLive.processVideoChunkQueue s).videoChunksQueue = s.videoChunksQueue) ∨
      (s.sourceBufferPresent = true ∧ s.updating = false ∧ s.mediaSourcePresent = true ∧
       s.readyStateOpen = true ∧
       ∃ c rest, s.videoChunksQueue = c :: rest ∧
         (VoiceLive.processVideoChunkQueue s).appended = s.appended ++ [c] ∧
         (VoiceLive.processVideoChunkQueue s).videoChunksQueue = rest ∧
         (VoiceLive.processVideoChunkQueue s).updating = true)) ∧
    (∀ evts : List (VoiceLive.VideoEvent ℕ),
      (VoiceLive.runVideo VoiceLive.initialVideoState evts).appended ++
        (VoiceLive.runVideo VoiceLive.initialVideoState evts).videoChunksQueue =
        VoiceLive.receivedChunks evts) := by
  constructor
  · intro s
    by_cases hg :
        (!s.sourceBufferPresent || s.updating || !s.mediaSourcePresent ||
          !s.readyStateOpen) = true
    · left
      unfold VoiceLive.processVideoChunkQueue
      rw [if_pos hg]
      exact ⟨rfl, rfl⟩
    · have h1 : s.sourceBufferPresent = true := by
        cases hb : s.sourceBufferPresent
        · exact absurd (by simp [hb]) hg
        · rfl
      have h2 : s.updating = false := by
        cases hb : s.updating
        · rfl
        · exact absurd (by simp [hb]) hg
      have h3 : s.mediaSourcePresent = true := by
        cases hb : s.mediaSourcePresent
        · exact absurd (by simp [hb]) hg
        · rfl
      have h4 : s.readyStateOpen = true := by
        cases hb : s.readyStateOpen
        · exact absurd (by simp [hb]) hg
        · rfl
      unfold VoiceLive.processVideoChunkQueue
      rw [if_neg hg]
      cases hq : s.videoChunksQueue with
      | nil => exact Or.inl (by simp [hq])
      | cons c rest =>
        exact Or.inr ⟨h1, h2, h3, h4, c, rest, rfl, by simp, by simp, by simp⟩
  · intro evts
    have h := VoiceLive.runVideo_conservation evts VoiceLive.initialVideoState
    simpa [VoiceLive.initialVideoState] using h

namespace VoiceLive

lemma scheduleAll_head_start_ge :
    ∀ (chunks : List (ℚ × ℕ)) (next : ℚ) (p : ℚ × ℚ),
      p ∈ (scheduleAll next chunks).head? → next ≤ p.1
  | [], next, p => by simp [scheduleAll]
  | (now, n) :: rest, next, p => by
    simp only [scheduleAll, List.head?_cons, Option.mem_def, Option.some_inj]
    intro hp
    subst hp
    have e1 : (scheduleChunk next now (chunkDuration n)).1 =
        if next < now then now else next := rfl
    simp only [e1]
    split_ifs with h
    · exact h.le
    · exact le_rfl

lemma chunkDuration_nonneg (n : ℕ) : 0 ≤ chunkDuration n := by
  unfold chunkDuration
  positivity

lemma scheduleAll_chain_noOverlap :
    ∀ (chunks : List (ℚ × ℕ)) (next : ℚ),
      List.Chain' (fun a b : ℚ × ℚ => a.1 + a.2 ≤ b.1) (scheduleAll next chunks)
  | [], _ => by simp [scheduleAll]
  | (now, n) :: rest, next => by
    rw [scheduleAll, List.chain'_cons']
    refine ⟨?_, scheduleAll_chain_noOverlap rest _⟩
    intro b hb
    have h := scheduleAll_head_start_ge rest (scheduleChunk next now (chunkDuration n)).2 b hb
    have e2 : (scheduleChunk next now (chunkDuration n)).2 =
        (scheduleChunk next now (chunkDuration n)).1 + chunkDuration n := rfl
    rw [e2] at h
    exact h

lemma scheduleAll_chain_mono :
    ∀ (chunks : List (ℚ × ℕ)) (next : ℚ),
      List.Chain' (fun a b : ℚ × ℚ => a.1 ≤ b.1) (scheduleAll next chunks)
  | [], _ => by simp [scheduleAll]
  | (now, n) :: rest, next => by
    rw [scheduleAll, List.chain'_cons']
    refine ⟨?_, scheduleAll_chain_mono rest _⟩
    intro b hb
    have h := scheduleAll_head_start_ge rest (scheduleChunk next now (chunkDuration n)).2 b hb
    have e2 : (scheduleChunk next now (chunkDuration n)).2 =
        (scheduleChunk next now (chunkDuration n)).1 + chunkDuration n := rfl
    rw [e2] at h
    have hd := chunkDuration_nonneg n
    linarith

end VoiceLive

/-- C9: handleAudioDelta schedules each decoded chunk at
max(current playback time, end of the previously scheduled chunk); over
any sequence of audio_data chunks the scheduled start times are
non-decreasing and each chunk's start time is at least the previous
chunk's start time plus the previous chunk's duration (no overlap). -/
theorem audioPlayback_schedule_correct :
    (∀ next now dur : ℚ,
      (VoiceLive.scheduleChunk next now dur).1 = max next now ∧
      (VoiceLive.scheduleChunk next now dur).2 = max next now + dur) ∧
    (∀ (next : ℚ) (chunks : List (ℚ × ℕ)),
      List.Chain' (fun a b : ℚ × ℚ => a.1 + a.2 ≤ b.1) (VoiceLive.scheduleAll next chunks) ∧
      List.Chain' (fun a b : ℚ × ℚ => a.1 ≤ b.1) (VoiceLive.scheduleAll next chunks)) := by
  constructor
  · intro next now dur
    have e1 : (VoiceLive.scheduleChunk next now dur).1 =
        if next < now then now else next := rfl
    have e2 : (VoiceLive.scheduleChunk next now dur).2 =
        (if next < now then now else next) + dur := rfl
    rw [e1, e2]
    by_cases h : next < now
    · rw [if_pos h, max_eq_right h.le]
      exact ⟨rfl, rfl⟩
    · rw [if_neg h, max_eq_left (not_lt.mp h)]
      exact ⟨rfl, rfl⟩
  · intro next chunks
    exact ⟨VoiceLive.scheduleAll_chain_noOverlap chunks next,
      VoiceLive.scheduleAll_chain_mono chunks next⟩

/-- C8 counterexample: the claim says the samples add no independent
scheduling or backpressure logic of their own, but app.js contains both: a
slider event arriving 10 ms after the last accepted scene update is
dropped by throttledUpdateAvatarScene (one 60 ms later passes), and
processVideoChunkQueue holds a queued video chunk back — appending
nothing — while a SourceBuffer append is in progress. -/
theorem concurrency_claim_counterexample :
    VoiceLive.throttledUpdateAvatarScene 1000 1010 = (1000, false) ∧
    VoiceLive.throttledUpdateAvatarScene 1000 1060 = (1060, true) ∧
    VoiceLive.processVideoChunkQueue
        (⟨true, true, true, true, [0], []⟩ : VoiceLive.VideoState ℕ) =
      ⟨true, true, true, true, [0], []⟩ := by
  exact ⟨by decide, by decide, by decide⟩

/-- C8 amended: concurrency is that of the hosting runtime and the vendor
SDK, and the samples add no locking, but they do implement two small
scheduling/backpressure mechanisms of their own: throttledUpdateAvatarScene
drops any scene update within 50 ms of the last accepted one and passes
updates 50 ms or more later, and processVideoChunkQueue defers queued
video chunks (appending nothing) whenever a SourceBuffer append is in
progress. -/
theorem concurrency_amended_throttle_and_queue :
    (∀ last now : ℤ, now - last < 50 →
      VoiceLive.throttledUpdateAvatarScene last now = (last, false)) ∧
    (∀ last now : ℤ, 50 ≤ now - last →
      VoiceLive.throttledUpdateAvatarScene last now = (now, true)) ∧
    (∀ s : VoiceLive.VideoState ℕ, s.updating = true →
      VoiceLive.processVideoChunkQueue s = s) := by
  refine ⟨?_, ?_, ?_⟩
  · intro last now h
    unfold VoiceLive.throttledUpdateAvatarScene
    rw [if_pos h]
  · intro last now h
    unfold VoiceLive.throttledUpdateAvatarScene
    rw [if_neg (not_lt.mpr h)]
  · intro s h
    unfold VoiceLive.processVideoChunkQueue
    rw [if_pos (by simp [h])]

/-- Witness for the amended C8 at concrete times and a concrete updating
state. -/
theorem concurrency_amended_witness :
    VoiceLive.throttledUpdateAvatarScene 0 10 = (0, false) ∧
    VoiceLive.throttledUpdateAvatarScene 0 60 = (60, true) ∧
    VoiceLive.processVideoChunkQueue
        (⟨true, true, true, true, [], []⟩ : VoiceLive.VideoState ℕ) =
      ⟨true, true, true, true, [], []⟩ :=
  ⟨concurrency_amended_throttle_and_queue.1 0 10 (by decide),
   concurrency_amended_throttle_and_queue.2.1 0 60 (by decide),
   concurrency_amended_throttle_and_queue.2.2 _ rfl⟩

/-- C7: each tool-call event handler updates only the entries whose id
equals the event's call id — onToolCallArguments sets arguments,
onToolCallExecuting sets status executing, onToolCallCompleted sets status
completed with result and execution time, onToolCallError sets status
error with the error — while every entry with a different id, the order,
and the length of the list are unchanged (the indexwise equations say
exactly this); onToolCallStarted appends exactly one new entry with status
started. -/
theorem toolCall_handlers_frame :
    (∀ (callId args : ℕ) (l : List VoiceLive.ToolCall) (i : ℕ),
      (VoiceLive.onToolCallArguments callId args l)[i]? =
        (l[i]?).map
          (fun c => if c.id = callId then { c with arguments := some args } else c)) ∧
    (∀ (callId : ℕ) (l : List VoiceLive.ToolCall) (i : ℕ),
      (VoiceLive.onToolCallExecuting callId l)[i]? =
        (l[i]?).map
          (fun c => if c.id = callId then { c with status := .executing } else c)) ∧
    (∀ (callId res : ℕ) (time : ℚ) (l : List VoiceLive.ToolCall) (i : ℕ),
      (VoiceLive.onToolCallCompleted callId res time l)[i]? =
        (l[i]?).map
          (fun c => if c.id = callId then
              { c with status := .completed, result := some res,
                       executionTime := some time }
            else c)) ∧
    (∀ (callId err : ℕ) (l : List VoiceLive.ToolCall) (i : ℕ),
      (VoiceLive.onToolCallError callId err l)[i]? =
        (l[i]?).map
          (fun c => if c.id = callId then
              { c with status := .error, error := some err }
            else c)) ∧
    (∀ (callId args : ℕ) (l : List VoiceLive.ToolCall),
      (VoiceLive.onToolCallArguments callId args l).length = l.length) ∧
    (∀ (callId : ℕ) (l : List VoiceLive.ToolCall),
      (VoiceLive.onToolCallExecuting callId l).length = l.length) ∧
    (∀ (callId res : ℕ) (time : ℚ) (l : List VoiceLive.ToolCall),
      (VoiceLive.onToolCallCompleted callId res time l).length = l.length) ∧
    (∀ (callId err : ℕ) (l : List VoiceLive.ToolCall),
      (VoiceLive.onToolCallError callId err l).length = l.length) ∧
    (∀ (callId fn : ℕ) (ts : ℚ) (l : List VoiceLive.ToolCall),
      VoiceLive.onToolCallStarted callId fn ts l =
        l ++ [{ id := callId, functionName := fn, status := .started, arguments := none,
                result := none, error := none, executionTime := none, timestamp := ts }]) := by
  refine ⟨?_, ?_, ?_, ?_, ?_, ?_, ?_, ?_, ?_⟩
  · intro callId args l i
    simp [VoiceLive.onToolCallArguments, List.getElem?_map]
  · intro callId l i
    simp [VoiceLive.onToolCallExecuting, List.getElem?_map]
  · intro callId res time l i
    simp [VoiceLive.onToolCallCompleted, List.getElem?_map]
  · intro callId err l i
    simp [VoiceLive.onToolCallError, List.getElem?_map]
  · intro callId args l
    simp [VoiceLive.onToolCallArguments]
  · intro callId l
    simp [VoiceLive.onToolCallExecuting]
  · intro callId res time l
    simp [VoiceLive.onToolCallCompleted]
  · intro callId err l
    simp [VoiceLive.onToolCallError]
  · intro callId fn ts l
    rfl

namespace VoiceLive

lemma handleServerMessage_no_audio (m : ServerMsg) (s : ClientState) :
    ∀ a ∈ (handleServerMessage m s).2, isAudioChunkSend a = false := by
  cases m <;>
    simp only [handleServerMessage, handleDisconnect] <;>
    (try split) <;>
    simp [isAudioChunkSend]

lemma handleServerMessage_no_reconnect (m : ServerMsg) (s : ClientState) :
    ∀ a ∈ (handleServerMessage m s).2,
      a ≠ Action.openWs ∧ ∀ cfg, a ≠ Action.send (ClientMsg.startSession cfg) := by
  cases m <;>
    simp only [handleServerMessage, handleDisconnect] <;>
    (try split) <;>
    simp

lemma clientStep_preserves_notRecording (e : ClientEvent) (s : ClientState)
    (he : e ≠ ClientEvent.toggleMic) (h : s.isRecording = false) :
    ((clientStep e s).1).isRecording = false := by
  cases e with
  | audioFrame d => exact h
  | toggleMic => exact absurd rfl he
  | serverMsg m =>
    cases m <;> simp [clientStep, handleServerMessage, handleDisconnect, h]
  | wsError => simpa [clientStep, onWsError] using h
  | wsClose => simp [clientStep, onWsClose, handleDisconnect]
  | connectClick f =>
    simp only [clientStep, connectSession]
    split_ifs <;> simp [h]

lemma clientStep_no_audio_of_notRecording (e : ClientEvent) (s : ClientState)
    (h : s.isRecording = false) :
    ∀ a ∈ (clientStep e s).2, isAudioChunkSend a = false := by
  cases e with
  | audioFrame d => simp [clientStep, onAudioFrame, h]
  | toggleMic => simp [clientStep]
  | serverMsg m => exact handleServerMessage_no_audio m s
  | wsError => simp [clientStep, onWsError, isAudioChunkSend]
  | wsClose =>
    simp only [clientStep, onWsClose, handleDisconnect]
    split <;> simp [isAudioChunkSend]
  | connectClick f =>
    simp only [clientStep, connectSession]
    split_ifs <;> simp [isAudioChunkSend]

lemma runClient_no_audio :
    ∀ (evts : List ClientEvent) (s : ClientState), s.isRecording = false →
      (∀ e ∈ evts, e ≠ ClientEvent.toggleMic) →
      ∀ a ∈ (runClient s evts).2, isAudioChunkSend a = false
  | [], s, _, _ => by simp [runClient]
  | e :: es, s, h, hno => by
    intro a ha
    simp only [runClient] at ha
    rcases List.mem_append.mp ha with hmem | hmem
    · exact clientStep_no_audio_of_notRecording e s h a hmem
    · exact runClient_no_audio es (clientStep e s).1
        (clientStep_preserves_notRecording e s (hno e (by simp)) h)
        (fun x hx => hno x (by simp [hx])) a hmem

end VoiceLive

/-- C4: an audio_chunk message is sent only when the session is connected,
the microphone toggle is on, and the frontend-to-backend WebSocket exists
and is open; and from any state in which recording is off (as
toggleMicrophone leaves it after turning the microphone off), no
audio_chunk is sent by any sequence of events that contains no microphone
toggle — recording can only be turned on again by toggleMicrophone. -/
theorem audioChunk_gating
    (d : List (Fin 256)) (s : VoiceLive.ClientState) (a : VoiceLive.Action)
    (ha : a ∈ VoiceLive.onAudioFrame d s)
    (evts : List VoiceLive.ClientEvent) (s0 : VoiceLive.ClientState)
    (h0 : s0.isRecording = false)
    (hno : ∀ e ∈ evts, e ≠ VoiceLive.ClientEvent.toggleMic) :
    (s.isConnected = true ∧ s.isRecording = true ∧ s.wsPresent = true ∧ s.wsOpen = true ∧
      a = VoiceLive.Action.send
        (VoiceLive.ClientMsg.audioChunk (VoiceLive.arrayBufferToBase64 d))) ∧
    (∀ b ∈ (VoiceLive.runClient s0 evts).2, VoiceLive.isAudioChunkSend b = false) := by
  constructor
  · unfold VoiceLive.onAudioFrame at ha
    split_ifs at ha with hg
    · exact absurd ha (List.not_mem_nil a)
    · push_neg at hg
      obtain ⟨h1, h2, h3, h4⟩ := hg
      have b1 : s.isConnected = true := by
        cases hb : s.isConnected
        · exact absurd hb h1
        · rfl
      have b2 : s.isRecording = true := by
        cases hb : s.isRecording
        · exact absurd hb h2
        · rfl
      have b3 : s.wsPresent = true := by
        cases hb : s.wsPresent
        · exact absurd hb h3
        · rfl
      have b4 : s.wsOpen = true := by
        cases hb : s.wsOpen
        · exact absurd hb h4
        · rfl
      rcases List.mem_singleton.mp ha with rfl
      exact ⟨b1, b2, b3, b4, rfl⟩
  · exact VoiceLive.runClient_no_audio evts s0 h0 hno

/-- Witness for C4: a concrete recording state sending one chunk, and a
concrete non-recording run (an audio frame then a socket close) that sends
nothing. -/
theorem audioChunk_gating_witness :
    ((⟨true, true, true, false, true, false, true, false⟩ :
        VoiceLive.ClientState).isConnected = true ∧
      (⟨true, true, true, false, true, false, true, false⟩ :
        VoiceLive.ClientState).isRecording = true ∧
      (⟨true, true, true, false, true, false, true, false⟩ :
        VoiceLive.ClientState).wsPresent = true ∧
      (⟨true, true, true, false, true, false, true, false⟩ :
        VoiceLive.ClientState).wsOpen = true ∧
      VoiceLive.Action.send
          (VoiceLive.ClientMsg.audioChunk (VoiceLive.arrayBufferToBase64 [])) =
        VoiceLive.Action.send
          (VoiceLive.ClientMsg.audioChunk (VoiceLive.arrayBufferToBase64 []))) ∧
    (∀ b ∈ (VoiceLive.runClient
        (⟨true, true, true, false, false, false, true, false⟩ : VoiceLive.ClientState)
        [VoiceLive.ClientEvent.audioFrame [], VoiceLive.ClientEvent.wsClose]).2,
      VoiceLive.isAudioChunkSend b = false) :=
  audioChunk_gating []
    (⟨true, true, true, false, true, false, true, false⟩ : VoiceLive.ClientState)
    (VoiceLive.Action.send
      (VoiceLive.ClientMsg.audioChunk (VoiceLive.arrayBufferToBase64 [])))
    (by decide)
    [VoiceLive.ClientEvent.audioFrame [], VoiceLive.ClientEvent.wsClose]
    (⟨true, true, true, false, false, false, true, false⟩ : VoiceLive.ClientState)
    rfl
    (by decide)

/-- C5: whenever the Connect action passes validation, the connect handler
opens the WebSocket and the first (and only) message sent on it is a
start_session whose config carries the endpoint and exactly one
credential: the Entra ID token when the selected mode is agent or
agent-v2, the subscription key otherwise. -/
theorem connectSession_first_message (f : VoiceLive.ConnectForm) (s : VoiceLive.ClientState)
    (he : VoiceLive.trimString f.endpoint ≠ [])
    (hk : VoiceLive.isAgentMode f.mode = false → VoiceLive.trimString f.apiKey ≠ [])
    (ht : VoiceLive.isAgentMode f.mode = true → VoiceLive.trimString f.entraToken ≠ []) :
    ∃ cfg,
      VoiceLive.connectSession f s =
        ({ s with isConnecting := true, wsPresent := true, wsOpen := true },
         [VoiceLive.Action.addMessage VoiceLive.Role.system
            VoiceLive.UiText.sessionStartedDebug,
          VoiceLive.Action.openWs,
          VoiceLive.Action.send (VoiceLive.ClientMsg.startSession cfg)]) ∧
      cfg.mode = f.mode ∧
      cfg.endpoint = some (VoiceLive.trimString f.endpoint) ∧
      (VoiceLive.isAgentMode f.mode = true →
        cfg.entraToken = some (VoiceLive.trimString f.entraToken) ∧ cfg.apiKey = none) ∧
      (VoiceLive.isAgentMode f.mode = false →
        cfg.apiKey = some (VoiceLive.trimString f.apiKey) ∧ cfg.entraToken = none) := by
  cases hAgent : VoiceLive.isAgentMode f.mode with
  | false =>
    simp only [VoiceLive.connectSession, VoiceLive.gatherConfig, hAgent]
    rw [if_neg he]
    simp only [eq_self_iff_true, true_and, false_and, if_false, Bool.false_eq_true]
    rw [if_neg (hk hAgent)]
    refine ⟨{ mode := f.mode, endpoint := some (VoiceLive.trimString f.endpoint),
              apiKey := some (VoiceLive.trimString f.apiKey), entraToken := none },
      ?_, rfl, rfl, fun hta => absurd hta (by simp), fun _ => ⟨rfl, rfl⟩⟩
    simp
  | true =>
    simp only [VoiceLive.connectSession, VoiceLive.gatherConfig, hAgent]
    rw [if_neg he]
    simp only [eq_self_iff_true, true_and, Bool.true_eq_false, false_and, if_false]
    rw [if_neg (ht hAgent)]
    refine ⟨{ mode := f.mode, endpoint := some (VoiceLive.trimString f.endpoint),
              apiKey := none, entraToken := some (VoiceLive.trimString f.entraToken) },
      ?_, rfl, rfl, fun _ => ⟨rfl, rfl⟩, fun hfa => absurd hfa (by simp)⟩
    simp

/-- Witness for C5 at a concrete non-agent form (endpoint "e", mode
"model", subscription key "k"). -/
theorem connectSession_first_message_witness :
    ∃ cfg,
      VoiceLive.connectSession
          (⟨[101], [109, 111, 100, 101, 108], [107], []⟩ : VoiceLive.ConnectForm)
          (⟨false, false, false, false, false, false, true, false⟩ : VoiceLive.ClientState) =
        ({ (⟨false, false, false, false, false, false, true, false⟩ :
              VoiceLive.ClientState) with
            isConnecting := true, wsPresent := true, wsOpen := true },
         [VoiceLive.Action.addMessage VoiceLive.Role.system
            VoiceLive.UiText.sessionStartedDebug,
          VoiceLive.Action.openWs,
          VoiceLive.Action.send (VoiceLive.ClientMsg.startSession cfg)]) ∧
      cfg.mode = [109, 111, 100, 101, 108] ∧
      cfg.endpoint = some (VoiceLive.trimString [101]) ∧
      (VoiceLive.isAgentMode [109, 111, 100, 101, 108] = true →
        cfg.entraToken = some (VoiceLive.trimString []) ∧ cfg.apiKey = none) ∧
      (VoiceLive.isAgentMode [109, 111, 100, 101, 108] = false →
        cfg.apiKey = some (VoiceLive.trimString [107]) ∧ cfg.entraToken = none) :=
  connectSession_first_message
    (⟨[101], [109, 111, 100, 101, 108], [107], []⟩ : VoiceLive.ConnectForm)
    (⟨false, false, false, false, false, false, true, false⟩ : VoiceLive.ClientState)
    (by decide) (fun _ => by decide) (fun h => absurd h (by decide))

/-- C6: error handling only surfaces a status message — connectSession
opens a socket and sends start_session only when the endpoint and the
credential required by the mode are non-empty, and on any validation
failure it only appends one system chat message and leaves the state
unchanged; a session_error message appends an error message and clears the
connecting flag; and no server-message, socket-error or socket-close
handler ever opens a WebSocket or sends start_session — reconnection and
resending happen only through a new user action. -/
theorem errorHandling_surface_only :
    (∀ (f : VoiceLive.ConnectForm) (s : VoiceLive.ClientState),
      (VoiceLive.trimString f.endpoint = [] ∨
       (VoiceLive.isAgentMode f.mode = false ∧ VoiceLive.trimString f.apiKey = []) ∨
       (VoiceLive.isAgentMode f.mode = true ∧ VoiceLive.trimString f.entraToken = [])) →
      ∃ t, VoiceLive.connectSession f s =
        (s, [VoiceLive.Action.addMessage VoiceLive.Role.system t])) ∧
    (∀ s : VoiceLive.ClientState,
      VoiceLive.handleServerMessage VoiceLive.ServerMsg.sessionError s =
        ({ s with isConnecting := false },
         [VoiceLive.Action.addMessage VoiceLive.Role.system
            VoiceLive.UiText.sessionErrorText])) ∧
    (∀ (m : VoiceLive.ServerMsg) (s : VoiceLive.ClientState),
      ∀ a ∈ (VoiceLive.handleServerMessage m s).2,
        a ≠ VoiceLive.Action.openWs ∧
        ∀ cfg, a ≠ VoiceLive.Action.send (VoiceLive.ClientMsg.startSession cfg)) ∧
    (∀ s : VoiceLive.ClientState,
      ∀ a ∈ (VoiceLive.onWsError s).2 ++ (VoiceLive.onWsClose s).2,
        a ≠ VoiceLive.Action.openWs ∧
        ∀ cfg, a ≠ VoiceLive.Action.send (VoiceLive.ClientMsg.startSession cfg)) := by
  refine ⟨?_, fun s => rfl, VoiceLive.handleServerMessage_no_reconnect, ?_⟩
  · intro f s hval
    by_cases hend : VoiceLive.trimString f.endpoint = []
    · refine ⟨VoiceLive.UiText.enterEndpoint, ?_⟩
      simp only [VoiceLive.connectSession]
      rw [if_pos hend]
    · rcases hval with h | ⟨hmode, hkey⟩ | ⟨hmode, htok⟩
      · exact absurd h hend
      · refine ⟨VoiceLive.UiText.enterSubscriptionKey, ?_⟩
        simp only [VoiceLive.connectSession, hmode]
        rw [if_neg hend, if_pos ⟨trivial, hkey⟩]
      · refine ⟨VoiceLive.UiText.enterEntraToken, ?_⟩
        simp only [VoiceLive.connectSession, hmode]
        rw [if_neg hend, if_neg (fun hc => Bool.noConfusion hc.1), if_pos ⟨trivial, htok⟩]
  · intro s a ha
    have key : ∀ x : VoiceLive.Action,
        (x = VoiceLive.Action.addMessage VoiceLive.Role.system VoiceLive.UiText.wsError ∨
         x = VoiceLive.Action.addMessage VoiceLive.Role.system VoiceLive.UiText.disconnected ∨
         x = VoiceLive.Action.stopCapture ∨ x = VoiceLive.Action.stopPlayback ∨
         x = VoiceLive.Action.closeWs) →
        x ≠ VoiceLive.Action.openWs ∧
        ∀ cfg, x ≠ VoiceLive.Action.send (VoiceLive.ClientMsg.startSession cfg) := by
      rintro x (rfl | rfl | rfl | rfl | rfl) <;> exact ⟨by simp, fun cfg => by simp⟩
    apply key
    rcases List.mem_append.mp ha with h | h
    · simp only [VoiceLive.onWsError, List.mem_singleton] at h
      exact Or.inl h
    · simp only [VoiceLive.onWsClose, VoiceLive.handleDisconnect] at h
      rcases List.mem_append.mp h with h2 | h2
      · revert h2
        split
        · intro h2
          simp only [List.mem_singleton] at h2
          exact Or.inr (Or.inl h2)
        · intro h2
          exact absurd h2 (List.not_mem_nil a)
      · simp only [List.mem_cons, List.not_mem_nil, or_false] at h2
        rcases h2 with rfl | rfl | rfl
        · exact Or.inr (Or.inr (Or.inl rfl))
        · exact Or.inr (Or.inr (Or.inr (Or.inl rfl)))
        · exact Or.inr (Or.inr (Or.inr (Or.inr rfl)))

/-- Witness for C6's validation-failure clause at the empty form: only one
system message is appended and the state is unchanged. -/
theorem errorHandling_surface_only_witness :
    ∃ t, VoiceLive.connectSession (⟨[], [], [], []⟩ : VoiceLive.ConnectForm)
        (⟨false, false, false, false, false, false, true, false⟩ : VoiceLive.ClientState) =
      ((⟨false, false, false, false, false, false, true, false⟩ : VoiceLive.ClientState),
       [VoiceLive.Action.addMessage VoiceLive.Role.system t]) :=
  errorHandling_surface_only.1 (⟨[], [], [], []⟩ : VoiceLive.ConnectForm)
    (⟨false, false, false, false, false, false, true, false⟩ : VoiceLive.ClientState)
    (Or.inl (by decide))
